import Mathlib

/-!
Verification development for the chunked source-separation streaming pipeline
of `walker-yt.py` (function `process_audio` and its worker thread).

The embedding below translates the pipeline's core into Lean:

* the Readiness Gate poll loop (lines 178-184) becomes `gate`, a function over
  a discrete observation trace, one observation per 1-second poll tick;
* the background worker loop (lines 140-166) becomes a fold over the sorted
  chunk list with a separation oracle `sep : chunk name → Option bytes`
  (`none` models "no output file at the expected path");
* chunk file names produced by the splitter's `chunk_%03d.m4a` pattern become
  `chunkName`, lists of character codes compared lexicographically, mirroring
  the `sorted(...)` call on the chunk directory listing;
* the setup phase of `process_audio` (lines 100-134) becomes `process_audio`,
  an explicit-state function over an environment describing the working
  directory and the outcomes of the external commands.
-/

/-- Character codes of a string, the representation used for chunk file
names so that Python's lexicographic string comparison becomes `lexLe`. -/
def strCodes (s : String) : List Nat :=
  s.data.map Char.toNat

/-- Lexicographic (strict-or-equal) comparison of code lists, mirroring
Python's string `<=` used by `sorted`. -/
def lexLe : List Nat → List Nat → Bool
  | [], _ => true
  | _ :: _, [] => false
  | a :: as, b :: bs =>
      if a < b then true
      else if b < a then false
      else lexLe as bs

instance lexLeDecRel : DecidableRel (fun x y : List Nat => lexLe x y = true) :=
  fun x y => inferInstanceAs (Decidable (lexLe x y = true))

/-- Decimal digit characters of `i` (codes), most significant first; fuel
makes the recursion structural. -/
def decAux : Nat → Nat → List Nat
  | 0, _ => []
  | fuel + 1, i => if i < 10 then [48 + i] else decAux fuel (i / 10) ++ [48 + i % 10]

/-- Decimal digit characters of `i`. -/
def dec (i : Nat) : List Nat := decAux (i + 1) i

/-- The `%03d` field of the splitter's output pattern: three zero-padded
digits below 1000, the full decimal expansion from 1000 on. -/
def pad3 (i : Nat) : List Nat :=
  if i < 1000 then [48 + i / 100, 48 + i / 10 % 10, 48 + i % 10] else dec i

/-- Character codes of the chunk file name `chunk_%03d.m4a` for index `i`,
exactly the names ffmpeg's segment muxer writes into the chunks directory. -/
def chunkName (i : Nat) : List Nat :=
  strCodes "chunk_" ++ pad3 i ++ strCodes ".m4a"

/-- The worker's chunk list: the names the splitter produced for `n`
segments, sorted lexicographically, mirroring
`sorted([f for f in os.listdir(chunks_dir) if f.endswith(".m4a")])`. -/
def sortedChunks (n : Nat) : List (List Nat) :=
  ((List.range n).map chunkName).insertionSort (fun x y => lexLe x y = true)

/-- One worker iteration's effect on the buffer: when the separated output
file exists (`sep c = some b`, `b` the decoded PCM bytes) the bytes are
appended; otherwise the buffer is left unchanged (the segment is skipped). -/
def workerStep (sep : List Nat → Option (List Nat)) (buf : List Nat) (c : List Nat) : List Nat :=
  match sep c with
  | some b => buf ++ b
  | none => buf

/-- Final byte content of the playback buffer after the worker loop has
visited every chunk, starting from the empty file. -/
def processWorkerBuffer (chunks : List (List Nat)) (sep : List Nat → Option (List Nat)) : List Nat :=
  chunks.foldl (workerStep sep) []

/-- Successive buffer states of the run: the state before any chunk and
after each chunk, in loop order. -/
def bufferStates (chunks : List (List Nat)) (sep : List Nat → Option (List Nat)) : List (List Nat) :=
  chunks.scanl (workerStep sep) []

/-- Observable event of one worker iteration. -/
inductive WEvent
  | appended (c : List Nat) (b : List Nat)
  | skipped (c : List Nat)
deriving DecidableEq

/-- The worker's event log: one event per chunk, in loop order; a chunk with
no separated output is skipped, every other chunk is appended. -/
def workerEvents (chunks : List (List Nat)) (sep : List Nat → Option (List Nat)) : List WEvent :=
  chunks.map fun c =>
    match sep c with
    | some b => WEvent.appended c b
    | none => WEvent.skipped c

/-- File operations the writer can perform on the playback file. The
vocabulary includes flushing, syncing and truncating so their absence from
the code's actual operation sequence is expressible. -/
inductive FileOp
  | openAppend
  | writeBytes (b : List Nat)
  | closeOp
  | flushOp
  | syncOp
  | truncateOp
deriving DecidableEq

/-- The operations one buffer append performs, from
`with open(playback_file, "ab") as f_out: subprocess.run([...ffmpeg...], stdout=f_out)`:
open in append mode, let the decoder write the bytes, close. -/
def bufferAppendOps (b : List Nat) : List FileOp :=
  [FileOp.openAppend, FileOp.writeBytes b, FileOp.closeOp]

/-- All file operations the worker performs on the playback file over a run. -/
def workerOps (chunks : List (List Nat)) (sep : List Nat → Option (List Nat)) : List FileOp :=
  (chunks.map fun c =>
    match sep c with
    | some b => bufferAppendOps b
    | none => []).flatten

/-- The decoder command the writer runs on one separated segment, from
lines 163-166 of the source. -/
def ffmpegDecodeArgs (src : String) : List String :=
  ["ffmpeg", "-y", "-i", src,
   "-f", "s16le", "-acodec", "pcm_s16le", "-ar", "44100", "-ac", "2", "-"]

/-- Sample rate of the fixed output format (from the `-ar 44100` argument). -/
def SAMPLE_RATE : Nat := 44100

/-- Channel count of the fixed output format (from the `-ac 2` argument). -/
def CHANNELS : Nat := 2

/-- Bytes per sample of the fixed output format (`s16le`: 16-bit). -/
def BYTES_PER_SAMPLE : Nat := 2

/-- Bytes of decoded audio per second at the fixed format. -/
def BYTES_PER_SECOND : Nat := SAMPLE_RATE * CHANNELS * BYTES_PER_SAMPLE

/-- One observation of the readiness-gate poll: the playback file's size
(`none` when the file does not exist) and whether the worker thread is
alive, both sampled at one poll tick. -/
structure Obs where
  size : Option Nat
  alive : Bool
deriving DecidableEq

/-- The poll-loop condition `not os.path.exists(playback_file) or
os.path.getsize(playback_file) < threshold`. -/
def belowThr (o : Obs) (thr : Nat) : Bool :=
  match o.size with
  | none => true
  | some s => decide (s < thr)

/-- Outcome of the Readiness Gate, tagged with the poll tick at which the
loop ended. -/
inductive GateResult
  | success (t : Nat)
  | producerDied (t : Nat)
  | timeout (t : Nat)
deriving DecidableEq

/-- The byte threshold of the gate's loop condition (line 179). -/
def PLAYABLE_THRESHOLD : Nat := 100000

/-- The wall-clock budget compared against the elapsed time (line 182). -/
def GATE_TIMEOUT : Nat := 120

/-- The sleep between polls, in seconds (line 184); tick `t` of the model
happens `t * POLL_INTERVAL` seconds after the gate starts. -/
def POLL_INTERVAL : Nat := 1

/-- One poll iteration and its successors, on `fuel` remaining iterations:
exit with success when the size reaches the threshold; otherwise fail with
producer-died when the worker is no longer alive (checked before the
timeout), fail with timeout once the elapsed time exceeds the budget, and
poll again otherwise. Mirrors lines 178-184 of the source. -/
def gateAux (obs : Nat → Obs) (thr tmo : Nat) : Nat → Nat → GateResult
  | 0, t => GateResult.timeout t
  | fuel + 1, t =>
      if belowThr (obs t) thr then
        if (obs t).alive then
          if tmo < t then GateResult.timeout t
          else gateAux obs thr tmo fuel (t + 1)
        else GateResult.producerDied t
      else GateResult.success t

/-- The Readiness Gate: run the poll loop from tick 0. The fuel `tmo + 2`
never runs out before the timeout branch fires, so it is only a
termination device. -/
def gate (obs : Nat → Obs) (thr tmo : Nat) : GateResult :=
  gateAux obs thr tmo (tmo + 2) 0

/-- The user-facing message of each failing gate outcome (the two `raise`
statements of the loop). -/
def gateMsg : GateResult → Option String
  | GateResult.producerDied _ => some "Processing worker died prematurely."
  | GateResult.timeout _ => some "Timeout waiting for first live chunk."
  | GateResult.success _ => none

/-- A trace is frozen after death when observations stop changing once the
worker thread has exited: a dead single-writer thread appends nothing more,
so the file size and liveness both stay fixed. -/
def FrozenDead (obs : Nat → Obs) : Prop :=
  ∀ s t, s ≤ t → (obs s).alive = false → obs t = obs s

/-- Soundness of the success exit: a successful gate run ends at a tick
whose observation meets the threshold, and every earlier tick it visited was
below threshold, had a live worker, and was within the timeout budget. -/
theorem gateAux_success_sound (obs : Nat → Obs) (thr tmo : Nat) :
    ∀ (fuel t0 u : Nat), gateAux obs thr tmo fuel t0 = GateResult.success u →
      belowThr (obs u) thr = false ∧ t0 ≤ u ∧
        ∀ s, t0 ≤ s → s < u →
          belowThr (obs s) thr = true ∧ (obs s).alive = true ∧ s ≤ tmo := by
  intro fuel
  induction fuel with
  | zero =>
      intro t0 u h
      simp [gateAux] at h
  | succ n ih =>
      intro t0 u h
      simp only [gateAux] at h
      cases hb : belowThr (obs t0) thr with
      | false =>
          rw [hb] at h
          simp only [Bool.false_eq_true, if_false] at h
          injection h with h'
          subst h'
          exact ⟨hb, le_refl _, fun s hs1 hs2 => absurd (lt_of_le_of_lt hs1 hs2) (lt_irrefl _)⟩
      | true =>
          rw [hb] at h
          simp only [if_true] at h
          cases ha : (obs t0).alive with
          | false => rw [ha] at h; simp at h
          | true =>
              rw [ha] at h
              simp only [if_true] at h
              by_cases ht : tmo < t0
              · rw [if_pos ht] at h; simp at h
              · rw [if_neg ht] at h
                obtain ⟨h1, h2, h3⟩ := ih (t0 + 1) u h
                refine ⟨h1, by omega, fun s hs1 hs2 => ?_⟩
                rcases Nat.eq_or_lt_of_le hs1 with rfl | hlt
                · exact ⟨hb, ha, by omega⟩
                · exact h3 s (by omega) hs2

/-- Completeness of the success exit: if every tick before `u` is below
threshold with a live worker and within budget, and tick `u` meets the
threshold, the gate succeeds at `u`. -/
theorem gateAux_success_complete (obs : Nat → Obs) (thr tmo : Nat) :
    ∀ (fuel t0 u : Nat), t0 ≤ u → u - t0 < fuel →
      (∀ s, t0 ≤ s → s < u →
        belowThr (obs s) thr = true ∧ (obs s).alive = true ∧ s ≤ tmo) →
      belowThr (obs u) thr = false →
      gateAux obs thr tmo fuel t0 = GateResult.success u := by
  intro fuel
  induction fuel with
  | zero => intro t0 u h1 h2 _ _; omega
  | succ n ih =>
      intro t0 u h1 h2 hpre hu
      rcases Nat.eq_or_lt_of_le h1 with rfl | hlt
      · simp only [gateAux, hu, Bool.false_eq_true, if_false]
      · have h0 := hpre t0 (le_refl _) hlt
        simp only [gateAux, h0.1, h0.2.1, if_true, if_neg (by omega : ¬ tmo < t0)]
        exact ih (t0 + 1) u (by omega) (by omega) (fun s hs1 hs2 => hpre s (by omega) hs2) hu

/-- Completeness of the producer-died exit: if every tick before `d` is
below threshold with a live worker and within budget, and at tick `d` the
buffer is still below threshold and the worker has exited, the gate fails
with producer-died at `d` — whatever the elapsed time at `d`. -/
theorem gateAux_died_complete (obs : Nat → Obs) (thr tmo : Nat) :
    ∀ (fuel t0 d : Nat), t0 ≤ d → d - t0 < fuel →
      (∀ s, t0 ≤ s → s < d →
        belowThr (obs s) thr = true ∧ (obs s).alive = true ∧ s ≤ tmo) →
      belowThr (obs d) thr = true → (obs d).alive = false →
      gateAux obs thr tmo fuel t0 = GateResult.producerDied d := by
  intro fuel
  induction fuel with
  | zero => intro t0 d h1 h2 _ _ _; omega
  | succ n ih =>
      intro t0 d h1 h2 hpre hd hdead
      rcases Nat.eq_or_lt_of_le h1 with rfl | hlt
      · simp only [gateAux, hd, if_true, hdead, Bool.false_eq_true, if_false]
      · have h0 := hpre t0 (le_refl _) hlt
        simp only [gateAux, h0.1, h0.2.1, if_true, if_neg (by omega : ¬ tmo < t0)]
        exact ih (t0 + 1) d (by omega) (by omega) (fun s hs1 hs2 => hpre s (by omega) hs2) hd hdead

/-- Completeness of the timeout exit: if every tick up to the budget's edge
is below threshold with a live worker, the gate times out at tick
`tmo + 1`, the first tick whose elapsed time exceeds the budget. -/
theorem gateAux_timeout_complete (obs : Nat → Obs) (thr tmo : Nat) :
    ∀ (fuel t0 : Nat), t0 ≤ tmo + 1 → (tmo + 1) - t0 < fuel →
      (∀ s, t0 ≤ s → s ≤ tmo + 1 →
        belowThr (obs s) thr = true ∧ (obs s).alive = true) →
      gateAux obs thr tmo fuel t0 = GateResult.timeout (tmo + 1) := by
  intro fuel
  induction fuel with
  | zero => intro t0 h1 h2 _; omega
  | succ n ih =>
      intro t0 h1 h2 hall
      have h0 := hall t0 (le_refl _) h1
      rcases Nat.eq_or_lt_of_le h1 with heq | hlt
      · subst heq
        simp only [gateAux, h0.1, h0.2, if_true, if_pos (Nat.lt_succ_self tmo)]
      · simp only [gateAux, h0.1, h0.2, if_true, if_neg (by omega : ¬ tmo < t0)]
        exact ih (t0 + 1) (by omega) (by omega) (fun s hs1 hs2 => hall s (by omega) hs2)

/-- C1: the Readiness Gate returns success exactly when the Buffer file's
size is observed at or above the playable threshold within the timeout
window (frozen-after-death traces, which is how a single-writer worker
behaves); it fails with the producer-died error whenever the worker thread
has exited while the Buffer is still below the threshold, at the first tick
that observes the exit and before the timeout check; it fails with the
distinct timeout error when the 120-second budget elapses without the
threshold being reached; and it polls at a fixed 1-second interval. -/
theorem readiness_gate_correct (obs : Nat → Obs) (hf : FrozenDead obs) :
    ((∃ u, gate obs PLAYABLE_THRESHOLD GATE_TIMEOUT = GateResult.success u) ↔
      (∃ t, t ≤ GATE_TIMEOUT + 1 ∧ belowThr (obs t) PLAYABLE_THRESHOLD = false))
    ∧ (∀ s, s ≤ GATE_TIMEOUT + 1 → (obs s).alive = false →
        (∀ t, t ≤ s → belowThr (obs t) PLAYABLE_THRESHOLD = true) →
        ∃ d, gate obs PLAYABLE_THRESHOLD GATE_TIMEOUT = GateResult.producerDied d ∧ d ≤ s)
    ∧ ((∀ t, t ≤ GATE_TIMEOUT + 1 →
          belowThr (obs t) PLAYABLE_THRESHOLD = true ∧ (obs t).alive = true) →
        gate obs PLAYABLE_THRESHOLD GATE_TIMEOUT = GateResult.timeout (GATE_TIMEOUT + 1))
    ∧ GATE_TIMEOUT = 120 ∧ POLL_INTERVAL = 1
    ∧ (∀ a b, GateResult.producerDied a ≠ GateResult.timeout b) := by
  refine ⟨⟨?_, ?_⟩, ?_, ?_, rfl, rfl, fun a b h => by simp at h⟩
  · rintro ⟨u, hu⟩
    obtain ⟨h1, _, h3⟩ := gateAux_success_sound obs PLAYABLE_THRESHOLD GATE_TIMEOUT _ 0 u hu
    refine ⟨u, ?_, h1⟩
    rcases Nat.eq_zero_or_pos u with rfl | hpos
    · omega
    · have := (h3 (u - 1) (by omega) (by omega)).2.2
      omega
  · rintro ⟨t, ht, hmet⟩
    have hex : ∃ r, belowThr (obs r) PLAYABLE_THRESHOLD = false := ⟨t, hmet⟩
    set u := Nat.find hex with hu
    have hspec : belowThr (obs u) PLAYABLE_THRESHOLD = false := Nat.find_spec hex
    have hmin : ∀ s, s < u → belowThr (obs s) PLAYABLE_THRESHOLD = true := by
      intro s hs
      have := Nat.find_min hex hs
      simpa using this
    have hule : u ≤ t := Nat.find_min' hex hmet
    refine ⟨u, gateAux_success_complete obs PLAYABLE_THRESHOLD GATE_TIMEOUT _ 0 u
      (Nat.zero_le _) (by omega) (fun s _ hs2 => ⟨hmin s hs2, ?_, by omega⟩) hspec⟩
    by_contra hdead
    have hsd : (obs s).alive = false := by
      cases hval : (obs s).alive
      · rfl
      · exact absurd hval hdead
    have := hf s u (le_of_lt hs2) hsd
    rw [this] at hspec
    rw [hmin s hs2] at hspec
    simp at hspec
  · intro s hs hdead hbelow
    have hex : ∃ r, (obs r).alive = false := ⟨s, hdead⟩
    set d := Nat.find hex with hd
    have hspec : (obs d).alive = false := Nat.find_spec hex
    have hdle : d ≤ s := Nat.find_min' hex hdead
    have hmin : ∀ r, r < d → (obs r).alive = true := by
      intro r hr
      have := Nat.find_min hex hr
      simpa using this
    exact ⟨d, gateAux_died_complete obs PLAYABLE_THRESHOLD GATE_TIMEOUT _ 0 d
      (Nat.zero_le _) (by omega)
      (fun r _ hr2 => ⟨hbelow r (by omega), hmin r hr2, by omega⟩)
      (hbelow d hdle) hspec, hdle⟩
  · intro hall
    exact gateAux_timeout_complete obs PLAYABLE_THRESHOLD GATE_TIMEOUT _ 0
      (Nat.zero_le _) (by omega) (fun r _ hr2 => hall r hr2)

/-- Witness for C1: on the trace whose buffer already holds exactly the
threshold's worth of bytes with a live worker, the gate succeeds. -/
theorem readiness_gate_correct_witness :
    ∃ u, gate (fun _ => Obs.mk (some 100000) true) PLAYABLE_THRESHOLD GATE_TIMEOUT =
      GateResult.success u :=
  ((readiness_gate_correct (fun _ => Obs.mk (some 100000) true)
      (fun _ _ _ h => by simp at h)).1).mpr ⟨0, by decide, by decide⟩

/-- `lexLe` is reflexive. -/
theorem lexLe_refl : ∀ x : List Nat, lexLe x x = true := by
  intro x
  induction x with
  | nil => rfl
  | cons a as ih => simp [lexLe, Nat.lt_irrefl, ih]

/-- Unfolding equation of `lexLe` on two nonempty lists. -/
theorem lexLe_cons (a b : Nat) (x y : List Nat) :
    lexLe (a :: x) (b :: y) =
      if a < b then true else if b < a then false else lexLe x y := rfl

/-- A shared prefix does not affect the comparison. -/
theorem lexLe_append_left : ∀ (p x y : List Nat), lexLe (p ++ x) (p ++ y) = lexLe x y := by
  intro p
  induction p with
  | nil => intro x y; rfl
  | cons a as ih => intro x y; simp [lexLe, Nat.lt_irrefl, ih]

/-- Below index 1000 the three-digit zero-padded chunk names compare
lexicographically exactly as their indices compare numerically. -/
theorem lexLe_chunkName_mono (i j : Nat) (hi : i < 1000) (hj : j < 1000) (hij : i ≤ j) :
    lexLe (chunkName i) (chunkName j) = true := by
  unfold chunkName
  rw [List.append_assoc, List.append_assoc, lexLe_append_left]
  simp only [pad3, if_pos hi, if_pos hj, List.cons_append, List.nil_append]
  rw [lexLe_cons]
  rcases Nat.lt_trichotomy (i / 100) (j / 100) with h2 | h2 | h2
  · rw [if_pos (by omega)]
  · rw [if_neg (by omega), if_neg (by omega), lexLe_cons]
    rcases Nat.lt_trichotomy (i / 10 % 10) (j / 10 % 10) with h1 | h1 | h1
    · rw [if_pos (by omega)]
    · rw [if_neg (by omega), if_neg (by omega), lexLe_cons]
      rcases Nat.lt_trichotomy (i % 10) (j % 10) with h0 | h0 | h0
      · rw [if_pos (by omega)]
      · rw [if_neg (by omega), if_neg (by omega)]
        exact lexLe_refl _
      · exact absurd rfl (by omega : ¬ (0 : Nat) = 0)
    · exact absurd rfl (by omega : ¬ (0 : Nat) = 0)
  · exact absurd rfl (by omega : ¬ (0 : Nat) = 0)

/-- For at most 1000 segments the splitter's names come back from `sorted`
in index order, so the worker visits segments in index order. -/
theorem sortedChunks_eq (n : Nat) (hn : n ≤ 1000) :
    sortedChunks n = (List.range n).map chunkName := by
  apply List.Sorted.insertionSort_eq
  rw [List.Sorted, List.pairwise_map]
  refine (List.pairwise_lt_range n).imp_of_mem ?_
  intro a b ha hb hab
  have ha' : a < n := List.mem_range.mp ha
  have hb' : b < n := List.mem_range.mp hb
  exact lexLe_chunkName_mono a b (by omega) (by omega) (le_of_lt hab)

/-- The worker's left fold over any chunk list, from any starting buffer,
appends exactly the concatenation of the per-chunk contributions. -/
theorem foldl_workerStep_append (sep : List Nat → Option (List Nat)) :
    ∀ (chunks : List (List Nat)) (acc : List Nat),
      chunks.foldl (workerStep sep) acc =
        acc ++ (chunks.map fun c => (sep c).getD []).flatten := by
  intro chunks
  induction chunks with
  | nil => intro acc; simp
  | cons c cs ih =>
      intro acc
      simp only [List.foldl_cons, List.map_cons, List.flatten_cons, ih]
      cases hsc : sep c <;> simp [workerStep, hsc, List.append_assoc]

/-- The final buffer is the in-visit-order concatenation of the per-chunk
contributions, a skipped chunk contributing nothing. -/
theorem processWorkerBuffer_eq_flatten (chunks : List (List Nat))
    (sep : List Nat → Option (List Nat)) :
    processWorkerBuffer chunks sep = (chunks.map fun c => (sep c).getD []).flatten := by
  simpa using foldl_workerStep_append sep chunks []

/-- C2 (amended): for runs of at most 1000 segments — the regime where the
three-digit zero-padded names sort lexicographically in index order — the
final Buffer equals the exact concatenation, in segment-index order, of each
segment's decoded PCM output, a segment with no separated output
contributing exactly zero bytes. -/
theorem buffer_concat_in_index_order (n : Nat) (sep : List Nat → Option (List Nat))
    (hn : n ≤ 1000) :
    processWorkerBuffer (sortedChunks n) sep =
      ((List.range n).map fun i => (sep (chunkName i)).getD []).flatten := by
  rw [sortedChunks_eq n hn, processWorkerBuffer_eq_flatten, List.map_map]
  rfl

/-- Witness for C2: a two-segment run whose second segment has no output
yields exactly the first segment's bytes. -/
theorem buffer_concat_in_index_order_witness :
    processWorkerBuffer (sortedChunks 2)
      (fun c => if c = chunkName 0 then some [1, 2] else none) = [1, 2] :=
  (buffer_concat_in_index_order 2
    (fun c => if c = chunkName 0 then some [1, 2] else none) (by decide)).trans (by decide)

/-- Separation oracle for the counterexample run: only segments 999 and
1000 produce output, with distinguishable bytes. -/
def sepPastThousand : List Nat → Option (List Nat) := fun c =>
  if c = chunkName 999 then some [9]
  else if c = chunkName 1000 then some [10] else none

set_option maxRecDepth 10000 in
/-- C2 counterexample: with 1001 segments the name `chunk_1000.m4a` sorts
lexicographically before `chunk_999.m4a`, so the Buffer is not the
index-order concatenation — segment 1000's bytes precede segment 999's. -/
theorem chunk_order_breaks_past_1000 :
    processWorkerBuffer (sortedChunks 1001) sepPastThousand ≠
      ((List.range 1001).map fun i => (sepPastThousand (chunkName i)).getD []).flatten := by
  decide

/-- C3 (amended): the gate's playable threshold is 100000 bytes, not
500000; a successful gate run observed the Buffer at 100000 bytes or more,
and at the fixed 176400 bytes-per-second format that is ≈0.567 seconds of
audio (between 0.56 s and 0.57 s), not ≈2.83 seconds. -/
theorem playable_threshold_semantics (obs : Nat → Obs) (t : Nat)
    (h : gate obs PLAYABLE_THRESHOLD GATE_TIMEOUT = GateResult.success t) :
    PLAYABLE_THRESHOLD = 100000
    ∧ (∃ s, (obs t).size = some s ∧ PLAYABLE_THRESHOLD ≤ s)
    ∧ BYTES_PER_SECOND = 176400
    ∧ BYTES_PER_SECOND * 56 ≤ PLAYABLE_THRESHOLD * 100
    ∧ PLAYABLE_THRESHOLD * 100 < BYTES_PER_SECOND * 57 := by
  obtain ⟨h1, -, -⟩ := gateAux_success_sound obs PLAYABLE_THRESHOLD GATE_TIMEOUT _ 0 t h
  refine ⟨rfl, ?_, by decide, by decide, by decide⟩
  unfold belowThr at h1
  cases hs : (obs t).size with
  | none => rw [hs] at h1; simp at h1
  | some s =>
      rw [hs] at h1
      simp only [decide_eq_false_iff_not, Nat.not_lt] at h1
      exact ⟨s, rfl, h1⟩

/-- Witness for C3's amended statement: a trace already holding exactly
100000 bytes makes the gate succeed, and the success observation carries a
size at or above the threshold. -/
theorem playable_threshold_semantics_witness :
    ∃ s, ((fun _ => Obs.mk (some 100000) true) 0).size = some s ∧ PLAYABLE_THRESHOLD ≤ s :=
  (playable_threshold_semantics (fun _ => Obs.mk (some 100000) true) 0 (by decide)).2.1

/-- C3 counterexample: the gate succeeds on a Buffer of exactly 100000
bytes, which is below the claimed 500000-byte threshold and below 2.83
seconds' worth of audio (176400 bytes per second). -/
theorem threshold_not_500000 :
    gate (fun _ => Obs.mk (some 100000) true) PLAYABLE_THRESHOLD GATE_TIMEOUT =
      GateResult.success 0
    ∧ PLAYABLE_THRESHOLD = 100000
    ∧ (100000 : Nat) < 500000
    ∧ 100000 * 100 < BYTES_PER_SECOND * 283 := by
  exact ⟨by decide, rfl, by decide, by decide⟩

/-- C4: a segment whose separation produces no output file is silently
skipped: it contributes no bytes to the Buffer, the worker raises nothing
and continues with the next segment (one event per chunk, the remaining
segments processed normally), so the run's outcome is the concatenation of
the other segments' contributions. -/
theorem missing_output_skipped (pre post : List (List Nat)) (c : List Nat)
    (sep : List Nat → Option (List Nat)) (h : sep c = none) :
    processWorkerBuffer (pre ++ c :: post) sep =
      processWorkerBuffer pre sep ++ processWorkerBuffer post sep
    ∧ workerEvents (pre ++ c :: post) sep =
        workerEvents pre sep ++ WEvent.skipped c :: workerEvents post sep
    ∧ (workerEvents (pre ++ c :: post) sep).length = (pre ++ c :: post).length := by
  refine ⟨?_, ?_, by simp [workerEvents]⟩
  · simp [processWorkerBuffer_eq_flatten, h]
  · simp [workerEvents, h]

/-- Witness for C4: a three-segment run whose middle segment has no output
produces exactly the outer segments' bytes. -/
theorem missing_output_skipped_witness :
    processWorkerBuffer ([[0]] ++ [1] :: [[2]])
        (fun c => if c = [1] then none else some [5]) =
      processWorkerBuffer [[0]] (fun c => if c = [1] then none else some [5]) ++
        processWorkerBuffer [[2]] (fun c => if c = [1] then none else some [5]) :=
  (missing_output_skipped [[0]] [[2]] [1]
    (fun c => if c = [1] then none else some [5]) (by decide)).1

/-- The head of a scan is its initial accumulator. -/
theorem scanl_head_eq {α β : Type} (f : β → α → β) (b : β) (l : List α) :
    (List.scanl f b l).head? = some b := by
  cases l <;> simp [List.scanl]

/-- A scan whose step always relates a state to its successor yields a
chain under that relation. -/
theorem chain'_scanl {α β : Type} (f : β → α → β) (R : β → β → Prop)
    (h : ∀ b a, R b (f b a)) :
    ∀ (l : List α) (init : β), List.Chain' R (List.scanl f init l) := by
  intro l
  induction l with
  | nil => intro init; simp [List.scanl]
  | cons a l ih =>
      intro init
      rw [List.scanl_cons, List.singleton_append]
      refine List.chain'_cons'.mpr ⟨?_, ih (f init a)⟩
      intro y hy
      rw [scanl_head_eq] at hy
      simp only [Option.mem_def, Option.some.injEq] at hy
      subst hy
      exact h init a

/-- C8: over the lifetime of a run the Buffer only grows: every successive
buffer state extends the previous one as a prefix (appends only, bytes
already written are never rewritten), the size is non-decreasing, and the
worker never issues a truncating file operation. -/
theorem buffer_monotone_growth (chunks : List (List Nat))
    (sep : List Nat → Option (List Nat)) :
    List.Chain' (fun a b : List Nat => a <+: b) (bufferStates chunks sep)
    ∧ List.Chain' (fun a b : List Nat => a.length ≤ b.length) (bufferStates chunks sep)
    ∧ FileOp.truncateOp ∉ workerOps chunks sep := by
  have hpre : List.Chain' (fun a b : List Nat => a <+: b) (bufferStates chunks sep) := by
    refine chain'_scanl _ _ (fun buf c => ?_) chunks []
    unfold workerStep
    cases hsc : sep c with
    | none => exact List.prefix_refl _
    | some b => exact List.prefix_append _ _
  refine ⟨hpre, hpre.imp (fun a b h => h.length_le), ?_⟩
  intro hmem
  rw [workerOps, List.mem_flatten] at hmem
  obtain ⟨l, hl, hop⟩ := hmem
  rw [List.mem_map] at hl
  obtain ⟨c, -, rfl⟩ := hl
  cases hsc : sep c with
  | none => rw [hsc] at hop; simp at hop
  | some b => rw [hsc] at hop; simp [bufferAppendOps] at hop

/-- C6 counterexample: the append step of the Buffer Writer performs no
explicit flush and no sync, refuting the claim that every append forces the
bytes durably to disk before returning. -/
theorem append_without_flush_sync :
    FileOp.flushOp ∉ bufferAppendOps [1, 2] ∧ FileOp.syncOp ∉ bufferAppendOps [1, 2] := by
  decide

/-- C6 (amended): every Buffer append decodes the separated segment with a
fixed command specifying interleaved signed 16-bit little-endian PCM at
44100 Hz and 2 channels, and appends the bytes through a handle opened in
append mode; no explicit flush or sync is issued before the append returns,
so durability is left to the operating system. -/
theorem buffer_append_format_no_sync (src : String) (b : List Nat) :
    ["-f", "s16le"] <:+: ffmpegDecodeArgs src
    ∧ ["-acodec", "pcm_s16le"] <:+: ffmpegDecodeArgs src
    ∧ ["-ar", "44100"] <:+: ffmpegDecodeArgs src
    ∧ ["-ac", "2"] <:+: ffmpegDecodeArgs src
    ∧ bufferAppendOps b = [FileOp.openAppend, FileOp.writeBytes b, FileOp.closeOp]
    ∧ FileOp.flushOp ∉ bufferAppendOps b
    ∧ FileOp.syncOp ∉ bufferAppendOps b := by
  refine ⟨⟨["ffmpeg", "-y", "-i", src],
      ["-acodec", "pcm_s16le", "-ar", "44100", "-ac", "2", "-"], rfl⟩,
    ⟨["ffmpeg", "-y", "-i", src, "-f", "s16le"], ["-ar", "44100", "-ac", "2", "-"], rfl⟩,
    ⟨["ffmpeg", "-y", "-i", src, "-f", "s16le", "-acodec", "pcm_s16le"], ["-ac", "2", "-"], rfl⟩,
    ⟨["ffmpeg", "-y", "-i", src, "-f", "s16le", "-acodec", "pcm_s16le", "-ar", "44100"],
      ["-"], rfl⟩,
    rfl, ?_, ?_⟩
  · simp [bufferAppendOps]
  · simp [bufferAppendOps]

/-- Does `pat` occur at the start of `s`? -/
def patAt : List Nat → List Nat → Bool
  | [], _ => true
  | _ :: _, [] => false
  | p :: ps, c :: cs => p == c && patAt ps cs

/-- Does `pat` occur anywhere inside `s`? Models how `pkill -f` matches a
plain-text pattern against a process's full command line. -/
def patIn (pat : List Nat) : List Nat → Bool
  | [] => patAt pat []
  | c :: cs => patAt pat (c :: cs) || patIn pat cs

/-- The process cleanup the Singleton Guard performs before a run: the one
command at line 101 of the source. -/
def cleanupCommands : List (List String) := [["pkill", "-f", "demucs"]]

/-- Whether the guard's cleanup kills a process with the given command
line: `pkill -f pat` terminates every process whose full command line
contains the pattern. -/
def killedByGuard (cmdline : String) : Bool :=
  cleanupCommands.any fun cmd =>
    match cmd with
    | ["pkill", "-f", pat] => patIn (strCodes pat) (strCodes cmdline)
    | _ => false

/-- C7 counterexample: the guard's generic `demucs` pattern kills an
unrelated process whose command line merely contains "demucs", while a
second instance of the tool itself and a previously launched player are
not terminated at all — refuting both the launch-marker matching and the
own-instance/consumer termination. -/
theorem guard_kills_by_generic_pattern :
    killedByGuard "python /opt/research/demucs_train.py" = true
    ∧ killedByGuard "python3 /usr/bin/walker-yt.py tune" = false
    ∧ killedByGuard "mpv --audio-file=/tmp/live_audio.raw" = false := by
  decide

/-- C7 (amended): the guard's whole cleanup is one best-effort
`pkill -f demucs`: it kills exactly the processes whose command line
contains the substring "demucs" — a generic pattern match that can hit
unrelated processes — and terminates neither other instances of this tool
nor a previously launched consumer. -/
theorem guard_only_kills_demucs_pattern (c : String) :
    cleanupCommands = [["pkill", "-f", "demucs"]]
    ∧ killedByGuard c = patIn (strCodes "demucs") (strCodes c) := by
  exact ⟨rfl, by simp [killedByGuard, cleanupCommands]⟩

/-- Environment of one `process_audio` invocation: the pre-existing state
of the working directory and the outcomes of the external commands. -/
structure Env where
  /-- content of a pre-existing playback buffer file, if any (line 114 removes it) -/
  buffer0 : Option (List Nat)
  /-- whether `input.m4a` already exists (line 121 skips the download then) -/
  audioExists : Bool
  /-- exit code of the downloader (non-zero raises, `check=True` at line 125) -/
  downloadExit : Nat
  /-- exit code of the splitter (non-zero raises, `check=True` at line 134) -/
  splitExit : Nat
  /-- stale files left in the chunks directory (all removed at line 129) -/
  staleChunks : List (List Nat)
  /-- stale separated outputs of a previous run left under `out_chunks`
  (never cleared by the code), as decoded bytes per chunk name -/
  outStale : List Nat → Option (List Nat)
  /-- number of chunk files a successful split writes -/
  nChunks : Nat
  /-- fresh separation outcome per chunk name: decoded bytes when the model
  writes an output file, `none` when it produces nothing -/
  sepFresh : List Nat → Option (List Nat)

/-- A `check=True` external command reported a non-zero outcome, aborting
`process_audio` by exception before the worker thread exists. -/
inductive PErr
  | downloadFailed
  | splitFailed
deriving DecidableEq

/-- Events of one `process_audio` invocation, in program order. -/
inductive Ev
  | killDemucs
  | removeBuffer
  | download
  | clearChunks
  | splitCmd
  | startWorker
  | sepChunk (c : List Nat)
deriving DecidableEq

/-- What the writer finds at the expected separated-output path for chunk
`c`: the fresh output when the model produced one (overwriting any stale
file), else a stale file from a previous run if one is present (the
`out_chunks` directory is never cleared), else nothing. -/
def effectiveSep (env : Env) (c : List Nat) : Option (List Nat) :=
  match env.sepFresh c with
  | some b => some b
  | none => env.outStale c

/-- The remove loop at line 129: every file in the chunks directory is
deleted before splitting. -/
def clearDir (_files : List (List Nat)) : List (List Nat) := []

/-- The chunk directory contents the worker lists after setup: the cleared
stale files plus the fresh split outputs, sorted as the worker sorts them. -/
def chunksAfterSetup (env : Env) : List (List Nat) :=
  (clearDir env.staleChunks ++ (List.range env.nChunks).map chunkName).insertionSort
    (fun x y => lexLe x y = true)

/-- The setup and worker phases of `process_audio` (lines 97-187 without
the gate): kill stale separators, remove any old buffer, download unless
cached, clear and re-split chunks, start the worker and run it; returns the
event list in program order and either the setup error or the final buffer
content. -/
def process_audio (env : Env) : List Ev × Except PErr (List Nat) :=
  if env.audioExists = false ∧ env.downloadExit ≠ 0 then
    ([Ev.killDemucs] ++ (if env.buffer0.isSome then [Ev.removeBuffer] else []) ++ [Ev.download],
     Except.error PErr.downloadFailed)
  else if env.splitExit ≠ 0 then
    ([Ev.killDemucs] ++ (if env.buffer0.isSome then [Ev.removeBuffer] else []) ++
       (if env.audioExists then [] else [Ev.download]) ++ [Ev.clearChunks, Ev.splitCmd],
     Except.error PErr.splitFailed)
  else
    ([Ev.killDemucs] ++ (if env.buffer0.isSome then [Ev.removeBuffer] else []) ++
       (if env.audioExists then [] else [Ev.download]) ++
       [Ev.clearChunks, Ev.splitCmd, Ev.startWorker] ++
       (chunksAfterSetup env).map Ev.sepChunk,
     Except.ok (processWorkerBuffer (chunksAfterSetup env) (effectiveSep env)))

/-- C5: if the download step (when it runs) or the splitting tool reports a
non-zero outcome, `process_audio` aborts with a setup error: no worker
thread is started and no segment separation is invoked. -/
theorem fatal_setup_aborts (env : Env)
    (h : (env.audioExists = false ∧ env.downloadExit ≠ 0) ∨ env.splitExit ≠ 0) :
    (∃ e, (process_audio env).2 = Except.error e)
    ∧ Ev.startWorker ∉ (process_audio env).1
    ∧ ∀ c, Ev.sepChunk c ∉ (process_audio env).1 := by
  unfold process_audio
  by_cases h1 : env.audioExists = false ∧ env.downloadExit ≠ 0
  · rw [if_pos h1]
    refine ⟨⟨PErr.downloadFailed, rfl⟩, ?_, fun c => ?_⟩ <;>
      cases h0 : env.buffer0.isSome <;> simp [h0]
  · have h2 : env.splitExit ≠ 0 := h.resolve_left h1
    rw [if_neg h1, if_pos h2]
    refine ⟨⟨PErr.splitFailed, rfl⟩, ?_, fun c => ?_⟩ <;>
      cases h0 : env.buffer0.isSome <;> cases ha : env.audioExists <;> simp [h0, ha]

/-- Witness for C5: a run whose splitter fails aborts with the split
error. -/
theorem fatal_setup_aborts_witness :
    ∃ e, (process_audio (Env.mk none true 0 1 [] (fun _ => none) 0 (fun _ => none))).2 =
      Except.error e :=
  (fatal_setup_aborts (Env.mk none true 0 1 [] (fun _ => none) 0 (fun _ => none))
    (Or.inr (by decide))).1

/-- A re-run environment: prior artifacts everywhere — an old buffer, a
stale chunk file, and a stale separated output for segment 0 — while the
fresh separation of segment 0 produces nothing. -/
def envRerun : Env :=
  Env.mk (some [1, 2, 3]) true 0 0 [chunkName 0]
    (fun c => if c = chunkName 0 then some [7, 7] else none) 1 (fun _ => none)

/-- The matching first-time environment: no prior artifacts, same external
outcomes. -/
def envFreshRun : Env :=
  Env.mk none true 0 0 [] (fun _ => none) 1 (fun _ => none)

/-- C9 counterexample: on a re-run whose fresh separation of segment 0
produces no output, the never-cleared `out_chunks` directory still holds
the prior run's separated output at the expected path, so its stale bytes
are appended — the re-run Buffer differs from a first-time run with the
same fresh outcomes. -/
theorem rerun_uses_stale_separated_output :
    (process_audio envRerun).2 = Except.ok [7, 7]
    ∧ (process_audio envFreshRun).2 = Except.ok []
    ∧ ([7, 7] : List Nat) ≠ [] := by
  refine ⟨rfl, rfl, by simp⟩

/-- C9 (amended): a re-run deletes the old Buffer and clears stale chunk
files, but the separated-output directory is not cleared; the re-run's
result equals a first-time run's (same download/split outcomes, same fresh
separation outcomes, no prior artifacts) exactly under the hypothesis that
no segment with a missing fresh output has a stale separated output at its
expected path — in particular whenever every fresh separation succeeds. -/
theorem rerun_matches_fresh_run (env envFresh : Env)
    (ha : envFresh.audioExists = env.audioExists)
    (hd : envFresh.downloadExit = env.downloadExit)
    (hs : envFresh.splitExit = env.splitExit)
    (hn : envFresh.nChunks = env.nChunks)
    (hbuf : envFresh.buffer0 = none)
    (hchunks : envFresh.staleChunks = [])
    (hstale : envFresh.outStale = fun _ => none)
    (hsep : envFresh.sepFresh = env.sepFresh)
    (h : ∀ c, env.sepFresh c = none → env.outStale c = none) :
    (process_audio env).2 = (process_audio envFresh).2 := by
  have heq : effectiveSep envFresh = effectiveSep env := by
    funext c
    unfold effectiveSep
    rw [hsep, hstale]
    cases hc : env.sepFresh c with
    | some b => simp [hc]
    | none => simp [hc, h c hc]
  unfold process_audio
  rw [ha, hd, hs, heq]
  unfold chunksAfterSetup clearDir
  rw [hn]
  split_ifs <;> rfl

/-- Witness for C9's amended statement: with every fresh separation
succeeding, a re-run over prior artifacts returns the same result as the
first-time run. -/
theorem rerun_matches_fresh_run_witness :
    (process_audio (Env.mk (some [3]) true 0 0 [[5]] (fun _ => none) 1 (fun _ => some [1]))).2 =
      (process_audio (Env.mk none true 0 0 [] (fun _ => none) 1 (fun _ => some [1]))).2 :=
  rerun_matches_fresh_run
    (Env.mk (some [3]) true 0 0 [[5]] (fun _ => none) 1 (fun _ => some [1]))
    (Env.mk none true 0 0 [] (fun _ => none) 1 (fun _ => some [1]))
    rfl rfl rfl rfl rfl rfl rfl rfl (fun c _ => rfl)

/-- Observation trace of a run whose splitter produced zero chunks: the
worker appends nothing, so the playback file — deleted at run start —
never reappears (`size = none` at every tick), and the thread, having an
empty loop, exits at tick `d`. -/
def emptyRunObs (d : Nat) : Nat → Obs := fun t => Obs.mk none (decide (t < d))

/-- C10: with an empty segment list the worker performs no step and never
creates the Buffer file, so the Readiness Gate always fails with the
producer-died error — raised at the tick the thread's exit is observed,
not after the full timeout — and can never return success at any tick for
any exit time. -/
theorem empty_split_producer_dies (d : Nat) (hd : d ≤ GATE_TIMEOUT) :
    sortedChunks 0 = []
    ∧ (∀ sep, workerEvents (sortedChunks 0) sep = []
        ∧ processWorkerBuffer (sortedChunks 0) sep = []
        ∧ workerOps (sortedChunks 0) sep = [])
    ∧ gate (emptyRunObs d) PLAYABLE_THRESHOLD GATE_TIMEOUT = GateResult.producerDied d
    ∧ gateMsg (GateResult.producerDied d) = some "Processing worker died prematurely."
    ∧ (∀ d' t, gate (emptyRunObs d') PLAYABLE_THRESHOLD GATE_TIMEOUT ≠ GateResult.success t) := by
  refine ⟨rfl, fun sep => ⟨rfl, rfl, rfl⟩, ?_, rfl, ?_⟩
  · unfold gate
    exact gateAux_died_complete (emptyRunObs d) PLAYABLE_THRESHOLD GATE_TIMEOUT
      (GATE_TIMEOUT + 2) 0 d (Nat.zero_le _) (by omega)
      (fun s _ hs2 => ⟨rfl, by simp [emptyRunObs, hs2], by omega⟩)
      rfl (by simp [emptyRunObs])
  · intro d' t hcon
    obtain ⟨h1, -, -⟩ :=
      gateAux_success_sound (emptyRunObs d') PLAYABLE_THRESHOLD GATE_TIMEOUT _ 0 t hcon
    simp [emptyRunObs, belowThr] at h1

/-- Witness for C10: a worker that exits at tick 1 makes the gate fail
with producer-died at tick 1. -/
theorem empty_split_producer_dies_witness :
    gate (emptyRunObs 1) PLAYABLE_THRESHOLD GATE_TIMEOUT = GateResult.producerDied 1 :=
  (empty_split_producer_dies 1 (by decide)).2.2.1
